import Mathlib

/-!
Verification of the Redlock distributed-lock coordinator (TypeScript source:
src/Redlock.ts, src/RedisClient.ts, src/adapters/NodeRedisAdapter.ts,
src/adapters/IORedisAdapter.ts, test mock: test/mocks/MockRedisClient.ts).

The coordinator is embedded shallowly:

* The per-store side of an acquire attempt is abstracted by the outcome each
  store produces for the conditional set (returned OK, returned null, or
  threw), and likewise each scripted eval produces an integer or throws.
  This mirrors the code, which inspects only the resolved value of each
  per-store promise and converts a rejection into a caught error.
* Wall-clock time is a sequence of values returned by the successive calls
  of the clock. The source calls the clock once at the entry of acquire
  (startTime) and once inside the quorum branch of each attempt, so the
  environment carries a start value and one check value per attempt index.
* The random token produced by generateLockId at the single call site inside
  acquire is carried by the environment (field token).
* Emitted events and issued store operations are recorded in a trace, in the
  order the code performs them.

Machine arithmetic: all quantities are Nat or Int.  The drift computation
Math.floor(0.01 * ttl) + 2 is embedded as ttl / 100 + 2 (natural division);
for a natural ttl the double-precision product 0.01 * ttl never crosses an
integer boundary (0.01 rounds up by about 2.1e-18 relatively, which is far
below half an ulp of any integer result), so the floor agrees exactly with
the rational floor, which equals natural division by 100.
-/

namespace Redlock

/-- Outcome of one per-store conditional-set call inside lockInstances:
the store answered OK, answered null (entry already live), or threw. -/
inductive SetOutcome
  | ok
  | nil
  | err
deriving DecidableEq

/-- Outcome of one per-store scripted eval call (unlock or extend script):
the store answered an integer, or the call threw. -/
inductive EvalOutcome
  | val (n : Int)
  | err
deriving DecidableEq

/-- Events emitted through the EventEmitter surface of the coordinator,
with the payload fields the source attaches to each one.  Store handles are
identified by their index in the client list. -/
inductive Event
  | lockError (store : Nat)
  | unlockError (store : Nat)
  | extendError (store : Nat)
  | errorEvt (msg : String)
  | lockAcquired (resource lockId : String) (validityTime : Int)
  | attemptFailed (resource lockId : String) (attempts : Nat)
  | lockReleased (resource lockId : String)
  | lockExtended (resource lockId : String) (ttl : Nat)
deriving DecidableEq

/-- One observable step of an acquire run: a conditional-set fan-out to all
stores (lockInstances), a rollback fan-out (unlockInstances), an emitted
event, or the inter-attempt sleep. -/
inductive Step
  | setFanout (attempt : Nat) (resource lockId : String) (ttl : Nat)
  | rollback (attempt : Nat) (resource lockId : String)
  | emit (e : Event)
  | sleep (ms : Nat)
deriving DecidableEq

/-! ## Store model

The store-side behaviour of the conditional set and of the check-then-delete
script, as implemented by MockRedisClient (test/mocks/MockRedisClient.ts).
The mock applies create-if-absent unconditionally, whatever flags the call
carries — the SET NX PX behaviour of a real store.  A store maps keys to
entries carrying a value and an absolute expiry; the mock uses Infinity when
no px option is given, embedded here as none. -/

/-- One stored lock entry: value and absolute expiry (none models the
Infinity expiry the mock assigns when px is absent or zero). -/
structure Entry where
  value : String
  expiresAt : Option Nat
deriving DecidableEq

/-- A backing store: association list from keys to entries (the Map of
MockRedisClient). -/
abbrev Store := List (String × Entry)

/-- Lookup of the entry stored at a key. -/
def Store.lookup (st : Store) (k : String) : Option Entry :=
  (st.find? fun p => p.1 == k).map fun p => p.2

/-- Overwrite the entry at a key (Map.prototype.set). -/
def Store.write (st : Store) (k : String) (e : Entry) : Store :=
  (k, e) :: st.filter fun p => !(p.1 == k)

/-- Delete the entry at a key (Map.prototype.delete). -/
def Store.erase (st : Store) (k : String) : Store :=
  st.filter fun p => !(p.1 == k)

/-- An entry is live when its expiry lies strictly in the future
(existing.expiresAt > currentTime in the mock). -/
def isLive (e : Entry) (now : Nat) : Bool :=
  match e.expiresAt with
  | none => true
  | some t => decide (now < t)

/-- Expiry assigned on creation: currentTime + px when the px option is
truthy, Infinity otherwise (a zero px is falsy in JavaScript). -/
def jsExpiry (now : Nat) (px : Option Nat) : Option Nat :=
  match px with
  | some p => if p = 0 then none else some (now + p)
  | none => none

/-- There is a live entry at the key (the guard of the early return in
MockRedisClient.set). -/
def existsLive (st : Store) (k : String) (now : Nat) : Bool :=
  match Store.lookup st k with
  | some e => isLive e now
  | none => false

/-- MockRedisClient.set: answer null and leave the store unchanged when a
live entry exists; otherwise create the entry and answer OK. -/
def mockSet (st : Store) (now : Nat) (key value : String) (px : Option Nat) :
    Option String × Store :=
  if existsLive st key now then (none, st)
  else (some "OK", Store.write st key { value := value, expiresAt := jsExpiry now px })

/-- The check-then-delete script of unlockInstances, as executed store-side
(MockRedisClient.eval, unlock branch): delete and answer 1 only when the
stored value equals the supplied lock id and the entry is live; otherwise
answer 0 and leave the store unchanged. -/
def scriptUnlock (st : Store) (now : Nat) (key lockId : String) : Int × Store :=
  match Store.lookup st key with
  | some e =>
      if e.value = lockId ∧ isLive e now = true then (1, Store.erase st key)
      else (0, st)
  | none => (0, st)

/-! ## Adapter request shape

The shape of the SET command each adapter issues from the options of a
RedisClient.set call.  The two adapters differ: NodeRedisAdapter
(src/adapters/NodeRedisAdapter.ts) hardcodes the NX flag, while
IORedisAdapter (src/adapters/IORedisAdapter.ts) pushes NX only when the nx
option is truthy — and Redlock.lockInstances passes only px, never nx. -/

/-- Shape of the SET command an adapter issues. -/
structure RedisSetCmd where
  nx : Bool
  px : Option Nat
deriving DecidableEq

/-- The optional options argument of RedisClient.set
(options?: nx?: boolean, px?: number); none stands for an absent field, and
an entirely absent options object is both fields none. -/
structure SetCallOptions where
  nx : Option Bool
  px : Option Nat
deriving DecidableEq

/-- The options Redlock.lockInstances passes to every per-store set call:
client.set(resource, lockId, with px = ttl) — px only, no nx. -/
def lockInstancesSetOptions (ttl : Nat) : SetCallOptions :=
  { nx := none, px := some ttl }

/-- NodeRedisAdapter.set (src/adapters/NodeRedisAdapter.ts): setOptions is
initialized with NX true, and PX is added only when the px option is truthy. -/
def NodeRedisAdapter.setCmd (px : Option Nat) : RedisSetCmd :=
  { nx := true
    px := match px with
      | some p => if p = 0 then none else some p
      | none => none }

/-- IORedisAdapter.set (src/adapters/IORedisAdapter.ts): the argument list
starts empty, NX is pushed only when options?.nx is truthy, and PX only when
options?.px is truthy.  An absent or false nx option yields a SET with no NX
flag. -/
def IORedisAdapter.setCmd (options : SetCallOptions) : RedisSetCmd :=
  { nx := match options.nx with
      | some b => b
      | none => false
    px := match options.px with
      | some p => if p = 0 then none else some p
      | none => none }

/-- Modelled from the spec: the store-side semantics of the SET command the
adapters issue, which is not code of this repository (it is the Redis server
behind the opaque client).  With the NX flag it is the conditionalSet of the
spec — create key to value with expiry now + ttl only if no live entry
exists, never overwrite a live entry — exactly as MockRedisClient implements
it.  Without the NX flag the no-live-entry guard is absent and the write
replaces whatever entry is stored. -/
def redisSet (nxFlag : Bool) (st : Store) (now : Nat) (key value : String)
    (px : Option Nat) : Option String × Store :=
  if nxFlag then mockSet st now key value px
  else (some "OK", Store.write st key { value := value, expiresAt := jsExpiry now px })

/-! ## Constructor configuration -/

/-- The optional constructor options of the coordinator. -/
structure RedlockOptions where
  retryCount : Option Nat
  retryDelay : Option Nat

/-- JavaScript defaulting with logical or: undefined and 0 are both falsy
and are replaced by the default. -/
def jsOrDefault (v : Option Nat) (d : Nat) : Nat :=
  match v with
  | none => d
  | some x => if x = 0 then d else x

/-- The configuration fields the constructor computes. -/
structure RedlockConfig where
  retryCount : Nat
  retryDelay : Nat
  quorum : Nat

/-- The Redlock constructor: retryCount defaults to 3 and retryDelay to 200
via logical or, quorum is floor(n / 2) + 1. -/
def mkConfig (numClients : Nat) (opts : Option RedlockOptions) : RedlockConfig :=
  { retryCount := jsOrDefault (opts.bind fun o => o.retryCount) 3
    retryDelay := jsOrDefault (opts.bind fun o => o.retryDelay) 200
    quorum := numClients / 2 + 1 }

/-! ## Coordinator model

The three fatal error messages of the source, then the acquire loop,
release and extend, translated from src/Redlock.ts. -/

/-- Error thrown when quorum was reached but the validity window was not
strictly positive. -/
def validityMsg : String := "Lock validity time expired before acquiring quorum."

/-- Error thrown after the retry loop exhausts all attempts. -/
def maxRetriesMsg : String := "Failed to acquire lock after maximum retries."

/-- Error thrown when extend reaches fewer than quorum stores. -/
def extendFailMsg : String := "Failed to extend lock on a majority of instances."

/-- Environment of one acquire call: the token produced by the single
generateLockId call, the clock value sampled at call entry, the clock value
sampled in the quorum branch of each attempt, and the per-store outcomes of
each conditional-set and rollback fan-out, indexed by attempt. -/
structure AcquireEnv where
  token : String
  startTime : Nat
  checkTime : Nat → Nat
  setResults : Nat → List SetOutcome
  unlockResults : Nat → List EvalOutcome

/-- lockInstances vote of one store: 1 when the store answered OK, 0 when it
answered null or threw (result === OK ? 1 : 0, and the catch returns 0). -/
def lockVote : SetOutcome → Nat
  | SetOutcome.ok => 1
  | SetOutcome.nil => 0
  | SetOutcome.err => 0

/-- lockInstances tally: the votes of all stores reduced by addition. -/
def lockInstancesVotes (outs : List SetOutcome) : Nat :=
  (outs.map lockVote).sum

/-- The lockError events lockInstances emits: one per store whose
conditional-set call threw, tagged with that store. -/
def lockErrorEvents (outs : List SetOutcome) : List Event :=
  (List.range outs.length).filterMap fun i =>
    if outs[i]? = some SetOutcome.err then some (Event.lockError i) else none

/-- The unlockError events unlockInstances emits: one per store whose eval
of the check-then-delete script threw.  The inner catch swallows every
per-store failure, so unlockInstances itself never throws. -/
def unlockEvents (outs : List EvalOutcome) : List Event :=
  (List.range outs.length).filterMap fun i =>
    if outs[i]? = some EvalOutcome.err then some (Event.unlockError i) else none

/-- The extendError events extend emits inside its per-store callback. -/
def extendEvents (outs : List EvalOutcome) : List Event :=
  (List.range outs.length).filterMap fun i =>
    if outs[i]? = some EvalOutcome.err then some (Event.extendError i) else none

/-- Votes of the fan-out of a given attempt (successfulLocks in the
source). -/
def attemptVotes (env : AcquireEnv) (k : Nat) : Nat :=
  lockInstancesVotes (env.setResults k)

/-- The drift budget of acquire: Math.floor(clockDriftFactor * ttl) + 2 with
clockDriftFactor = 0.01, which for natural ttl is ttl / 100 + 2 (see the
header note on floating point). -/
def drift (ttl : Nat) : Nat := ttl / 100 + 2

/-- validityTime as computed in the quorum branch of attempt k:
ttl - elapsedTime - drift, with elapsedTime = Date.now() - startTime where
startTime was sampled once at the entry of the acquire call. -/
def attemptValidity (env : AcquireEnv) (ttl : Nat) (k : Nat) : Int :=
  (ttl : Int) - ((env.checkTime k : Int) - (env.startTime : Int)) - (drift ttl : Int)

/-- The steps of one conditional-set fan-out (lockInstances): the request to
all stores carrying the resource, the token and the ttl, followed by the
lockError events of the stores that threw. -/
def fanoutBlock (env : AcquireEnv) (resource : String) (ttl k : Nat) : List Step :=
  Step.setFanout k resource env.token ttl ::
    (lockErrorEvents (env.setResults k)).map Step.emit

/-- The steps of one rollback fan-out (unlockInstances called from the
acquire loop at attempt k). -/
def rollbackBlock (env : AcquireEnv) (resource : String) (k : Nat) : List Step :=
  Step.rollback k resource env.token ::
    (unlockEvents (env.unlockResults k)).map Step.emit

/-- Result and observable trace of an acquire call. -/
structure AcquireRun where
  result : Except String String
  trace : List Step

/-- The while loop of acquire, by the number of remaining iterations
(remaining = retryCount - attempts, so the guard attempts < retryCount is
remaining > 0).  Per iteration: fan the conditional set out, tally votes;
on quorum compute the validity window and either return the token or roll
back and throw the fatal validity error; below quorum roll back, emit
attemptFailed, sleep for retryDelay and retry.  After the loop the fatal
max-retries error is thrown. -/
def acquireLoop (env : AcquireEnv) (resource : String) (ttl quorum retryDelay : Nat) :
    Nat → Nat → AcquireRun
  | 0, _ =>
      { result := Except.error maxRetriesMsg
        trace := [Step.emit (Event.errorEvt maxRetriesMsg)] }
  | remaining + 1, attempts =>
      if quorum ≤ attemptVotes env attempts then
        if 0 < attemptValidity env ttl attempts then
          { result := Except.ok env.token
            trace := fanoutBlock env resource ttl attempts ++
              [Step.emit (Event.lockAcquired resource env.token
                (attemptValidity env ttl attempts))] }
        else
          { result := Except.error validityMsg
            trace := fanoutBlock env resource ttl attempts ++
              rollbackBlock env resource attempts ++
              [Step.emit (Event.errorEvt validityMsg)] }
      else
        let rest := acquireLoop env resource ttl quorum retryDelay remaining (attempts + 1)
        { result := rest.result
          trace := fanoutBlock env resource ttl attempts ++
            rollbackBlock env resource attempts ++
            [Step.emit (Event.attemptFailed resource env.token attempts),
             Step.sleep retryDelay] ++ rest.trace }

/-- Redlock.acquire: generate the token and sample the clock once (both in
the environment), then run the retry loop from attempts = 0. -/
def acquire (env : AcquireEnv) (resource : String)
    (ttl quorum retryCount retryDelay : Nat) : AcquireRun :=
  acquireLoop env resource ttl quorum retryDelay retryCount 0

/-- Redlock.release: await unlockInstances (which swallows every per-store
failure, emitting unlockError for each), then emit lockReleased.  Nothing in
that sequence can throw, so the catch branch of release is unreachable and
the call always resolves. -/
def release (resource lockId : String) (outs : List EvalOutcome) :
    Except String Unit × List Event :=
  (Except.ok (), unlockEvents outs ++ [Event.lockReleased resource lockId])

/-- Number(res) for the per-store extend results: null becomes 0. -/
def jsNumber : Option Int → Int
  | none => 0
  | some n => n

/-- Redlock.extend: fan the check-then-renew script out to every store (a
throwing store yields null after emitting extendError), count the results
that equal 1, and compare with quorum: on quorum emit lockExtended and
resolve, otherwise emit the fatal error and throw. -/
def extend (resource lockId : String) (ttl quorum : Nat) (outs : List EvalOutcome) :
    Except String Unit × List Event :=
  let results : List (Option Int) := outs.map fun o =>
    match o with
    | EvalOutcome.val n => some n
    | EvalOutcome.err => none
  let extensions := (results.filter fun res => jsNumber res == 1).length
  if quorum ≤ extensions then
    (Except.ok (), extendEvents outs ++ [Event.lockExtended resource lockId ttl])
  else
    (Except.error extendFailMsg, extendEvents outs ++ [Event.errorEvt extendFailMsg])

/-! ## Spec-side comparison definitions and concrete environments -/

/-- Follows the spec wording for the drift budget: ceil of clockDriftFactor
times TTL, plus the 2 ms safety margin, with clockDriftFactor = 1/100. -/
def driftSpecCeil (ttl : Nat) : Nat := ⌈(ttl : ℚ) * (1 / 100)⌉₊ + 2

/-- The same drift formula with floor in place of ceil. -/
def driftSpecFloor (ttl : Nat) : Nat := ⌊(ttl : ℚ) * (1 / 100)⌋₊ + 2

/-- Follows the spec wording for the validity window of an attempt measured
from the start time of that attempt (step 2 of the spec algorithm): ttl
minus the elapsed time since the attempt start, minus the drift budget. -/
def validityFromAttemptStart (attemptStart checkTime ttl : Nat) : Int :=
  (ttl : Int) - ((checkTime : Int) - (attemptStart : Int)) - (drift ttl : Int)

/-- Concrete run with one store and two attempts: the store answers null on
attempt 0 and OK on attempt 1, the clock never advances. -/
def envC3 : AcquireEnv :=
  { token := "cafebabe"
    startTime := 0
    checkTime := fun _ => 0
    setResults := fun k => if k = 0 then [SetOutcome.nil] else [SetOutcome.ok]
    unlockResults := fun _ => [] }

/-- Concrete run with three stores: all answer null on attempt 0; two answer
OK on attempt 1, whose quorum check happens at clock value 1000 while the
call started at clock value 0. -/
def envC4 : AcquireEnv :=
  { token := "t4"
    startTime := 0
    checkTime := fun _ => 1000
    setResults := fun k =>
      if k = 0 then [SetOutcome.nil, SetOutcome.nil, SetOutcome.nil]
      else [SetOutcome.ok, SetOutcome.ok, SetOutcome.nil]
    unlockResults := fun _ => [] }

/-- Concrete run with one store that throws on every attempt. -/
def envErr : AcquireEnv :=
  { token := "w"
    startTime := 0
    checkTime := fun _ => 0
    setResults := fun _ => [SetOutcome.err]
    unlockResults := fun _ => [] }

/-- Concrete run with one store that answers null on every attempt. -/
def envNil : AcquireEnv :=
  { token := "w"
    startTime := 0
    checkTime := fun _ => 0
    setResults := fun _ => [SetOutcome.nil]
    unlockResults := fun _ => [] }

/-! ## Helper lemmas about the acquire loop -/

/-- Branch equation: quorum reached and validity window strictly positive. -/
lemma acquireLoop_quorum_ok {env : AcquireEnv} {r : String} {ttl q rd n a : Nat}
    (hq : q ≤ attemptVotes env a) (hv : 0 < attemptValidity env ttl a) :
    acquireLoop env r ttl q rd (n + 1) a =
      { result := Except.ok env.token
        trace := fanoutBlock env r ttl a ++
          [Step.emit (Event.lockAcquired r env.token (attemptValidity env ttl a))] } := by
  simp only [acquireLoop, if_pos hq, if_pos hv]

/-- Branch equation: quorum reached but validity window exhausted. -/
lemma acquireLoop_quorum_fatal {env : AcquireEnv} {r : String} {ttl q rd n a : Nat}
    (hq : q ≤ attemptVotes env a) (hv : ¬ 0 < attemptValidity env ttl a) :
    acquireLoop env r ttl q rd (n + 1) a =
      { result := Except.error validityMsg
        trace := fanoutBlock env r ttl a ++ rollbackBlock env r a ++
          [Step.emit (Event.errorEvt validityMsg)] } := by
  simp only [acquireLoop, if_pos hq, if_neg hv]

/-- Branch equation: votes below quorum. -/
lemma acquireLoop_below {env : AcquireEnv} {r : String} {ttl q rd n a : Nat}
    (hq : ¬ q ≤ attemptVotes env a) :
    acquireLoop env r ttl q rd (n + 1) a =
      { result := (acquireLoop env r ttl q rd n (a + 1)).result
        trace := fanoutBlock env r ttl a ++ rollbackBlock env r a ++
          [Step.emit (Event.attemptFailed r env.token a), Step.sleep rd] ++
          (acquireLoop env r ttl q rd n (a + 1)).trace } := by
  simp only [acquireLoop, if_neg hq]

/-- Result of the below-quorum branch. -/
lemma acquireLoop_below_result {env : AcquireEnv} {r : String} {ttl q rd n a : Nat}
    (hq : ¬ q ≤ attemptVotes env a) :
    (acquireLoop env r ttl q rd (n + 1) a).result =
      (acquireLoop env r ttl q rd n (a + 1)).result := by
  rw [acquireLoop_below hq]

/-- Trace of the below-quorum branch, fully right-associated. -/
lemma acquireLoop_below_trace {env : AcquireEnv} {r : String} {ttl q rd n a : Nat}
    (hq : ¬ q ≤ attemptVotes env a) :
    (acquireLoop env r ttl q rd (n + 1) a).trace =
      fanoutBlock env r ttl a ++ (rollbackBlock env r a ++
        ([Step.emit (Event.attemptFailed r env.token a), Step.sleep rd] ++
          (acquireLoop env r ttl q rd n (a + 1)).trace)) := by
  rw [acquireLoop_below hq]
  simp [List.append_assoc]

/-- Trace of the quorum-but-exhausted-validity branch, right-associated. -/
lemma acquireLoop_quorum_fatal_trace {env : AcquireEnv} {r : String} {ttl q rd n a : Nat}
    (hq : q ≤ attemptVotes env a) (hv : ¬ 0 < attemptValidity env ttl a) :
    (acquireLoop env r ttl q rd (n + 1) a).trace =
      fanoutBlock env r ttl a ++ (rollbackBlock env r a ++
        [Step.emit (Event.errorEvt validityMsg)]) := by
  rw [acquireLoop_quorum_fatal hq hv]
  simp [List.append_assoc]

/-- The loop returns the token exactly when some reachable iteration wins the
vote with a strictly positive validity window, every earlier iteration having
lost the vote. -/
lemma loop_ok_iff (env : AcquireEnv) (r : String) (ttl q rd : Nat) :
    ∀ remaining attempts,
      ((acquireLoop env r ttl q rd remaining attempts).result = Except.ok env.token ↔
        ∃ i, i < remaining ∧ (∀ j, j < i → attemptVotes env (attempts + j) < q) ∧
          q ≤ attemptVotes env (attempts + i) ∧ 0 < attemptValidity env ttl (attempts + i)) := by
  intro remaining
  induction remaining with
  | zero =>
      intro attempts
      constructor
      · intro h; exact absurd h (by simp [acquireLoop])
      · rintro ⟨i, hi, -⟩; omega
  | succ n ih =>
      intro attempts
      by_cases hq : q ≤ attemptVotes env attempts
      · by_cases hv : 0 < attemptValidity env ttl attempts
        · rw [acquireLoop_quorum_ok hq hv]
          constructor
          · intro _
            exact ⟨0, Nat.succ_pos n, fun j hj => absurd hj (Nat.not_lt_zero j),
              by simpa using hq, by simpa using hv⟩
          · intro _; rfl
        · rw [acquireLoop_quorum_fatal hq hv]
          constructor
          · intro h; exact absurd h (by simp)
          · rintro ⟨i, hi, hbelow, hquo, hval⟩
            rcases Nat.eq_zero_or_pos i with h0 | hpos
            · subst h0
              exact absurd (by simpa using hval) hv
            · have := hbelow 0 hpos
              simp only [Nat.add_zero] at this
              omega
      · rw [acquireLoop_below_result hq, ih (attempts + 1)]
        constructor
        · rintro ⟨i, hi, hbelow, hquo, hval⟩
          refine ⟨i + 1, by omega, ?_, ?_, ?_⟩
          · intro j hj
            match j, hj with
            | 0, _ => simpa using Nat.not_le.1 hq
            | j' + 1, hj =>
                have := hbelow j' (by omega)
                rwa [show attempts + (j' + 1) = attempts + 1 + j' by omega]
          · rwa [show attempts + (i + 1) = attempts + 1 + i by omega]
          · rwa [show attempts + (i + 1) = attempts + 1 + i by omega]
        · rintro ⟨i, hi, hbelow, hquo, hval⟩
          rcases Nat.eq_zero_or_pos i with h0 | hpos
          · subst h0
            exact absurd (by simpa using hquo) hq
          · obtain ⟨i', rfl⟩ : ∃ i', i = i' + 1 := ⟨i - 1, by omega⟩
            refine ⟨i', by omega, ?_, ?_, ?_⟩
            · intro j hj
              have := hbelow (j + 1) (by omega)
              rwa [show attempts + (j + 1) = attempts + 1 + j by omega] at this
            · rwa [show attempts + (i' + 1) = attempts + 1 + i' by omega] at hquo
            · rwa [show attempts + (i' + 1) = attempts + 1 + i' by omega] at hval

/-- The loop result is one of exactly three shapes: the token of the call, or
one of the two fatal errors. -/
lemma loop_result_cases (env : AcquireEnv) (r : String) (ttl q rd : Nat) :
    ∀ remaining attempts,
      (acquireLoop env r ttl q rd remaining attempts).result = Except.ok env.token ∨
      (acquireLoop env r ttl q rd remaining attempts).result = Except.error validityMsg ∨
      (acquireLoop env r ttl q rd remaining attempts).result = Except.error maxRetriesMsg := by
  intro remaining
  induction remaining with
  | zero => intro a; right; right; rfl
  | succ n ih =>
      intro a
      by_cases hq : q ≤ attemptVotes env a
      · by_cases hv : 0 < attemptValidity env ttl a
        · left; rw [acquireLoop_quorum_ok hq hv]
        · right; left; rw [acquireLoop_quorum_fatal hq hv]
      · rw [acquireLoop_below_result hq]; exact ih (a + 1)

/-- A conditional-set fan-out step inside a fanoutBlock is the head of the
block, so it carries the attempt index, resource, token and ttl of the block. -/
lemma setFanout_mem_fanoutBlock {env : AcquireEnv} {r : String} {ttl k a : Nat}
    {res tok : String} {t : Nat}
    (h : Step.setFanout a res tok t ∈ fanoutBlock env r ttl k) :
    a = k ∧ res = r ∧ tok = env.token ∧ t = ttl := by
  simp only [fanoutBlock, List.mem_cons, List.mem_map] at h
  rcases h with h | ⟨e, -, h⟩
  · simpa only [Step.setFanout.injEq] using h
  · cases h

/-- A rollbackBlock contains no conditional-set fan-out step. -/
lemma setFanout_not_mem_rollbackBlock {env : AcquireEnv} {r : String} {k a : Nat}
    {res tok : String} {t : Nat} :
    Step.setFanout a res tok t ∉ rollbackBlock env r k := by
  simp [rollbackBlock, List.mem_cons, List.mem_map]

/-- Skipping d consecutive losing iterations: the run from a given attempt
equals a prefix (whose conditional-set fan-outs all belong to the skipped
attempts) followed by the run from attempt + d. -/
lemma loop_skip (env : AcquireEnv) (r : String) (ttl q rd : Nat) :
    ∀ (d remaining attempts : Nat), d ≤ remaining →
      (∀ j, j < d → attemptVotes env (attempts + j) < q) →
      ∃ pre : List Step,
        (acquireLoop env r ttl q rd remaining attempts).result =
          (acquireLoop env r ttl q rd (remaining - d) (attempts + d)).result ∧
        (acquireLoop env r ttl q rd remaining attempts).trace =
          pre ++ (acquireLoop env r ttl q rd (remaining - d) (attempts + d)).trace ∧
        (∀ a res tok t, Step.setFanout a res tok t ∈ pre → a < attempts + d) := by
  intro d
  induction d with
  | zero =>
      intro remaining attempts _ _
      exact ⟨[], by simp, by simp, by simp⟩
  | succ m ih =>
      intro remaining attempts hd hb
      obtain ⟨n, rfl⟩ : ∃ n, remaining = n + 1 := ⟨remaining - 1, by omega⟩
      have h0 : attemptVotes env attempts < q := by simpa using hb 0 (Nat.succ_pos m)
      have hq : ¬ q ≤ attemptVotes env attempts := Nat.not_le.2 h0
      obtain ⟨pre, hres, htr, hfan⟩ := ih n (attempts + 1) (by omega) (fun j hj => by
        have := hb (j + 1) (by omega)
        rwa [show attempts + (j + 1) = attempts + 1 + j by omega] at this)
      refine ⟨fanoutBlock env r ttl attempts ++ rollbackBlock env r attempts ++
        [Step.emit (Event.attemptFailed r env.token attempts), Step.sleep rd] ++ pre,
        ?_, ?_, ?_⟩
      · rw [acquireLoop_below_result hq, hres,
          show n + 1 - (m + 1) = n - m by omega,
          show attempts + (m + 1) = attempts + 1 + m by omega]
      · rw [acquireLoop_below_trace hq, htr,
          show n + 1 - (m + 1) = n - m by omega,
          show attempts + (m + 1) = attempts + 1 + m by omega]
        simp [List.append_assoc]
      · intro a res tok t hmem
        rcases List.mem_append.1 (by simpa only [List.append_assoc] using hmem) with
          h1 | h2
        · have := (setFanout_mem_fanoutBlock h1).1
          omega
        · rcases List.mem_append.1 h2 with h3 | h4
          · exact absurd h3 setFanout_not_mem_rollbackBlock
          · rcases List.mem_append.1 h4 with h5 | h6
            · simp at h5
            · exact lt_of_lt_of_le (hfan a res tok t h6) (by omega)

/-- Every conditional-set fan-out of a run carries the resource, the ttl and
the one token of the call. -/
lemma loop_fanout_token (env : AcquireEnv) (r : String) (ttl q rd : Nat) :
    ∀ remaining attempts a res tok t,
      Step.setFanout a res tok t ∈ (acquireLoop env r ttl q rd remaining attempts).trace →
      tok = env.token ∧ res = r ∧ t = ttl := by
  intro remaining
  induction remaining with
  | zero =>
      intro attempts a res tok t h
      simp [acquireLoop] at h
  | succ n ih =>
      intro attempts a res tok t h
      by_cases hq : q ≤ attemptVotes env attempts
      · by_cases hv : 0 < attemptValidity env ttl attempts
        · rw [acquireLoop_quorum_ok hq hv] at h
          rcases List.mem_append.1 h with h1 | h2
          · obtain ⟨-, h2, h3, h4⟩ := setFanout_mem_fanoutBlock h1
            exact ⟨h3, h2, h4⟩
          · simp at h2
        · rw [acquireLoop_quorum_fatal hq hv] at h
          rcases List.mem_append.1 (by simpa only [List.append_assoc] using h) with h1 | h2
          · obtain ⟨-, h2, h3, h4⟩ := setFanout_mem_fanoutBlock h1
            exact ⟨h3, h2, h4⟩
          · rcases List.mem_append.1 h2 with h3 | h4
            · exact absurd h3 setFanout_not_mem_rollbackBlock
            · simp at h4
      · rw [acquireLoop_below_trace hq] at h
        rcases List.mem_append.1 (by simpa only [List.append_assoc] using h) with h1 | h2
        · obtain ⟨-, h2, h3, h4⟩ := setFanout_mem_fanoutBlock h1
          exact ⟨h3, h2, h4⟩
        · rcases List.mem_append.1 h2 with h3 | h4
          · exact absurd h3 setFanout_not_mem_rollbackBlock
          · rcases List.mem_append.1 h4 with h5 | h6
            · simp at h5
            · exact ih (attempts + 1) a res tok t h6

/-- The result of a run depends on the per-store set outcomes only through
the per-attempt vote tallies: two environments with the same token, clock
samples and vote counts produce the same result.  In particular a store that
throws influences the run exactly as one that answers null. -/
lemma loop_result_votes_only (env env' : AcquireEnv) (r : String) (ttl q rd : Nat)
    (htok : env.token = env'.token) (hst : env.startTime = env'.startTime)
    (hck : env.checkTime = env'.checkTime)
    (hv : ∀ k, attemptVotes env k = attemptVotes env' k) :
    ∀ remaining attempts,
      (acquireLoop env r ttl q rd remaining attempts).result =
      (acquireLoop env' r ttl q rd remaining attempts).result := by
  have hval : ∀ k, attemptValidity env ttl k = attemptValidity env' ttl k := by
    intro k; simp [attemptValidity, hst, hck]
  intro remaining
  induction remaining with
  | zero => intro a; rfl
  | succ n ih =>
      intro a
      by_cases hq : q ≤ attemptVotes env a
      · have hq' : q ≤ attemptVotes env' a := by rw [← hv a]; exact hq
        by_cases hvl : 0 < attemptValidity env ttl a
        · have hvl' : 0 < attemptValidity env' ttl a := by rw [← hval a]; exact hvl
          rw [acquireLoop_quorum_ok hq hvl, acquireLoop_quorum_ok hq' hvl', htok]
        · have hvl' : ¬ 0 < attemptValidity env' ttl a := by rw [← hval a]; exact hvl
          rw [acquireLoop_quorum_fatal hq hvl, acquireLoop_quorum_fatal hq' hvl']
      · have hq' : ¬ q ≤ attemptVotes env' a := by rw [← hv a]; exact hq
        rw [acquireLoop_below_result hq, acquireLoop_below_result hq']
        exact ih (a + 1)

/-- The vote tally of lockInstances counts exactly the stores that answered
OK: a store that answered null or threw contributes 0. -/
lemma lockInstancesVotes_eq_count (outs : List SetOutcome) :
    lockInstancesVotes outs = outs.count SetOutcome.ok := by
  induction outs with
  | nil => rfl
  | cons o rest ih =>
      cases o <;>
        simp [lockInstancesVotes, lockVote, List.count_cons, List.map_cons, List.sum_cons,
          lockInstancesVotes] at ih ⊢ <;>
        omega

/-- A store whose conditional-set call threw gets a lockError notification
tagged with its index. -/
lemma mem_lockErrorEvents {outs : List SetOutcome} {i : Nat}
    (h : outs[i]? = some SetOutcome.err) :
    Event.lockError i ∈ lockErrorEvents outs := by
  have hlt : i < outs.length := by
    by_contra hge
    rw [List.getElem?_eq_none (by omega)] at h
    cases h
  refine List.mem_filterMap.2 ⟨i, List.mem_range.2 hlt, ?_⟩
  rw [h]
  simp

/-- The extensions tally of extend counts exactly the stores whose scripted
renew answered 1; a throwing store contributes a null, whose Number is 0. -/
lemma extendTally_eq_count (outs : List EvalOutcome) :
    ((outs.map fun o =>
        match o with
        | EvalOutcome.val n => some n
        | EvalOutcome.err => none).filter fun res => jsNumber res == 1).length =
      outs.count (EvalOutcome.val 1) := by
  induction outs with
  | nil => rfl
  | cons o rest ih =>
      cases o with
      | val n =>
          simp only [List.map_cons, List.filter_cons, List.count_cons]
          rw [show (jsNumber (some n) == 1) = (n == 1) from rfl]
          by_cases h1 : n = 1
          · subst h1
            simp [ih]
          · simp [h1, ih]
      | err =>
          simp only [List.map_cons, List.filter_cons, List.count_cons]
          rw [show (jsNumber (none : Option Int) == 1) = false from rfl]
          simp [ih]

/-- A store whose check-then-delete eval threw gets an unlockError
notification tagged with its index. -/
lemma mem_unlockEvents {outs : List EvalOutcome} {i : Nat}
    (h : outs[i]? = some EvalOutcome.err) :
    Event.unlockError i ∈ unlockEvents outs := by
  have hlt : i < outs.length := by
    by_contra hge
    rw [List.getElem?_eq_none (by omega)] at h
    cases h
  refine List.mem_filterMap.2 ⟨i, List.mem_range.2 hlt, ?_⟩
  rw [h]
  simp

/-- The last element of a list extended by a singleton. -/
lemma getLast?_append_singleton {α : Type} (l : List α) (a : α) :
    (l ++ [a]).getLast? = some a := by
  induction l with
  | nil => rfl
  | cons x xs ih =>
      rw [List.cons_append]
      cases hxs : xs ++ [a] with
      | nil => exact absurd hxs (by simp)
      | cons y ys =>
          rw [List.getLast?_cons_cons, ← hxs]
          exact ih

/-- Lookup after writing a key finds the written entry. -/
lemma lookup_write_self (st : Store) (k : String) (e : Entry) :
    Store.lookup (Store.write st k e) k = some e := by
  unfold Store.lookup Store.write
  rw [List.find?_cons_of_pos _ (by simp)]
  rfl

/-- jsOrDefault with a positive default is positive: a zero or missing value
falls back to the default. -/
lemma jsOrDefault_pos (v : Option Nat) (d : Nat) (hd : 0 < d) : 0 < jsOrDefault v d := by
  unfold jsOrDefault
  cases v with
  | none => exact hd
  | some x =>
      by_cases hx : x = 0
      · simp [hx]
        omega
      · simp [hx]
        omega

/-- extend, with its tally rewritten as the count of stores answering 1. -/
lemma extend_eq (resource lockId : String) (ttl quorum : Nat) (outs : List EvalOutcome) :
    extend resource lockId ttl quorum outs =
      if quorum ≤ outs.count (EvalOutcome.val 1) then
        (Except.ok (), extendEvents outs ++ [Event.lockExtended resource lockId ttl])
      else
        (Except.error extendFailMsg, extendEvents outs ++ [Event.errorEvt extendFailMsg]) := by
  simp only [extend]
  rw [extendTally_eq_count]

/-! ## Claim theorems -/

/-- Claim C1 (code bug): the claim — every acquire-side set request is a
conditional create-if-absent that never overwrites a live entry — matches
the spec, the README, MockRedisClient and the node-redis adapter, but the
ioredis adapter breaks it: lockInstances passes only px (never nx), and
IORedisAdapter.set pushes the NX flag only when the nx option is truthy, so
the SET issued on that path carries no NX.  At the failing input — a store
holding the live entry r to t1 (expiry 10) at time 5 — the flagless SET the
coordinator issues through that adapter overwrites the entry held under the
different token t1, while the NX-flagged SET of the node-redis path leaves
it intact and answers null. -/
theorem ioredis_set_request_not_conditional :
    (∀ ttl, (IORedisAdapter.setCmd (lockInstancesSetOptions ttl)).nx = false) ∧
    (∀ px, (NodeRedisAdapter.setCmd px).nx = true) ∧
    redisSet false [("r", { value := "t1", expiresAt := some 10 })] 5 "r" "t2" (some 1000) =
      (some "OK", [("r", { value := "t2", expiresAt := some 1005 })]) ∧
    redisSet true [("r", { value := "t1", expiresAt := some 10 })] 5 "r" "t2" (some 1000) =
      (none, [("r", { value := "t1", expiresAt := some 10 })]) :=
  ⟨fun _ => rfl, fun _ => rfl, rfl, rfl⟩

/-- Claim C2: acquire returns a token exactly when some attempt within the
retry budget wins the vote with at least quorum stores and a strictly
positive validity window, all earlier attempts having lost the vote; in
every other case the result is one of the two fatal errors. -/
theorem acquire_token_iff_quorum_and_validity (env : AcquireEnv) (r : String)
    (ttl q rc rd : Nat) :
    ((acquire env r ttl q rc rd).result = Except.ok env.token ↔
      ∃ k, k < rc ∧ (∀ j, j < k → attemptVotes env j < q) ∧
        q ≤ attemptVotes env k ∧ 0 < attemptValidity env ttl k) ∧
    ((acquire env r ttl q rc rd).result = Except.ok env.token ∨
      (acquire env r ttl q rc rd).result = Except.error validityMsg ∨
      (acquire env r ttl q rc rd).result = Except.error maxRetriesMsg) := by
  constructor
  · have h := loop_ok_iff env r ttl q rd rc 0
    simpa [acquire] using h
  · exact loop_result_cases env r ttl q rd rc 0

/-- Claim C3 counterexample: in the concrete run envC3 the same acquire call
performs two attempts (attempt 0 and attempt 1), and both conditional-set
fan-outs carry the same token value, so a retry does not generate a new
token. -/
theorem token_not_fresh_per_attempt_cex :
    Step.setFanout 0 "r" "cafebabe" 1000 ∈ (acquire envC3 "r" 1000 1 2 200).trace ∧
    Step.setFanout 1 "r" "cafebabe" 1000 ∈ (acquire envC3 "r" 1000 1 2 200).trace ∧
    (acquire envC3 "r" 1000 1 2 200).result = Except.ok "cafebabe" :=
  ⟨by decide, by decide, rfl⟩

/-- Claim C3 amended: the token is generated exactly once per acquire call,
before the retry loop, and every conditional-set fan-out of that call (every
attempt, retries included) carries that one token. -/
theorem single_token_per_acquire_call (env : AcquireEnv) (r : String)
    (ttl q rc rd a : Nat) (res tok : String) (t : Nat)
    (h : Step.setFanout a res tok t ∈ (acquire env r ttl q rc rd).trace) :
    tok = env.token :=
  (loop_fanout_token env r ttl q rd rc 0 a res tok t h).1

/-- Claim C3 amended witness. -/
theorem single_token_per_acquire_call_witness :
    Step.setFanout 1 "r" "cafebabe" 1000 ∈ (acquire envC3 "r" 1000 1 2 200).trace ∧
    "cafebabe" = envC3.token :=
  ⟨by decide,
   single_token_per_acquire_call envC3 "r" 1000 1 2 200 1 "r" "cafebabe" 1000 (by decide)⟩

/-- Claim C4 counterexample: in the concrete run envC4 attempt 0 fails and
attempt 1 reaches quorum with its clock check at 1000.  Had the elapsed time
been measured from the start of attempt 1 (for instance at clock value 990,
after the first attempt and the retry delay), the validity window would have
been 978 > 0; the code instead subtracts from the clock value sampled at the
entry of the whole call (0), obtains -12, and aborts with the fatal validity
error. -/
theorem elapsed_spans_whole_call_cex :
    (acquire envC4 "r" 1000 2 3 200).result = Except.error validityMsg ∧
    attemptValidity envC4 1000 1 = -12 ∧
    validityFromAttemptStart 990 1000 1000 = 978 :=
  ⟨rfl, rfl, rfl⟩

/-- Claim C4 amended: for every attempt that reaches quorum, the elapsed
time subtracted in the validity computation is measured from the single
start time recorded at the entry of the whole acquire call, before the first
attempt, so it accumulates earlier failed attempts and retry delays; the
attempt succeeds or fatally fails according to that call-start-based
window. -/
theorem validity_measured_from_call_start (env : AcquireEnv) (r : String)
    (ttl q rc rd k : Nat)
    (hreach : ∀ j, j < k → attemptVotes env j < q) (hk : k < rc)
    (hq : q ≤ attemptVotes env k) :
    (0 < attemptValidity env ttl k →
      (acquire env r ttl q rc rd).result = Except.ok env.token ∧
      Step.emit (Event.lockAcquired r env.token (attemptValidity env ttl k)) ∈
        (acquire env r ttl q rc rd).trace) ∧
    (attemptValidity env ttl k ≤ 0 →
      (acquire env r ttl q rc rd).result = Except.error validityMsg) ∧
    attemptValidity env ttl k =
      (ttl : Int) - ((env.checkTime k : Int) - (env.startTime : Int)) -
        (drift ttl : Int) := by
  obtain ⟨pre, hres, htr, -⟩ :=
    loop_skip env r ttl q rd k rc 0 (by omega) (fun j hj => by simpa using hreach j hj)
  rw [Nat.zero_add] at hres htr
  obtain ⟨n, hn⟩ : ∃ n, rc - k = n + 1 := ⟨rc - k - 1, by omega⟩
  rw [hn] at hres htr
  refine ⟨?_, ?_, rfl⟩
  · intro hv
    constructor
    · show (acquireLoop env r ttl q rd rc 0).result = _
      rw [hres, acquireLoop_quorum_ok hq hv]
    · show Step.emit _ ∈ (acquireLoop env r ttl q rd rc 0).trace
      rw [htr, acquireLoop_quorum_ok hq hv]
      simp
  · intro hv
    have hv' : ¬ 0 < attemptValidity env ttl k := by omega
    show (acquireLoop env r ttl q rd rc 0).result = _
    rw [hres, acquireLoop_quorum_fatal hq hv']

/-- Claim C4 amended witness: in envC3 attempt 1 reaches quorum and the
call-start-based validity window is 988, so the call succeeds. -/
theorem validity_measured_from_call_start_witness :
    (acquire envC3 "r" 1000 1 2 200).result = Except.ok envC3.token ∧
    attemptValidity envC3 1000 1 = 988 :=
  ⟨((validity_measured_from_call_start envC3 "r" 1000 1 2 200 1
      (fun j hj => by
        have hj0 : j = 0 := by omega
        subst hj0
        decide)
      (by decide) (by decide)).1 (by decide)).1,
   rfl⟩

/-- Claim C5 counterexample: at ttl = 150 the code computes a drift budget
of floor(0.01 * 150) + 2 = 3, while the spec formula with ceil gives
ceil(0.01 * 150) + 2 = 4. -/
theorem drift_not_ceil_cex :
    drift 150 = 3 ∧ driftSpecCeil 150 = 4 := by
  constructor
  · rfl
  · have h2 : (⌈((150 : Nat) : ℚ) * (1 / 100)⌉₊ : Nat) = 2 := by
      rw [show ((150 : Nat) : ℚ) * (1 / 100) = 3 / 2 by norm_num]
      rw [Nat.ceil_eq_iff (by norm_num)]
      norm_num
    unfold driftSpecCeil
    rw [h2]

/-- Claim C5 amended: the drift budget subtracted in the validity window is
floor(clockDriftFactor * ttl) + 2 with clockDriftFactor = 1/100 (floor, not
ceil), and the validity window of every attempt subtracts exactly that
budget. -/
theorem drift_is_floor_plus_margin (ttl : Nat) :
    drift ttl = driftSpecFloor ttl ∧
    (∀ (env : AcquireEnv) (k : Nat),
      attemptValidity env ttl k =
        (ttl : Int) - ((env.checkTime k : Int) - (env.startTime : Int)) -
          (driftSpecFloor ttl : Int)) := by
  have h : driftSpecFloor ttl = ttl / 100 + 2 := by
    unfold driftSpecFloor
    have hc : ((ttl : Nat) : ℚ) * (1 / 100) = (ttl : ℚ) / ((100 : Nat) : ℚ) := by
      push_cast
      ring
    rw [hc, Nat.floor_div_nat, Nat.floor_natCast]
  constructor
  · rw [h]
    rfl
  · intro env k
    rw [h]
    rfl

/-- Claim C6: extend resolves, and appends the lockExtended notification
carrying resource, token and ttl, exactly when at least quorum stores
answered 1 to the check-then-renew script; with fewer such answers it
appends the fatal error notification and rejects (extend performs a single
tally with no retry loop). -/
theorem extend_quorum_iff (resource lockId : String) (ttl quorum : Nat)
    (outs : List EvalOutcome) :
    ((extend resource lockId ttl quorum outs).1 = Except.ok () ↔
      quorum ≤ outs.count (EvalOutcome.val 1)) ∧
    (quorum ≤ outs.count (EvalOutcome.val 1) →
      (extend resource lockId ttl quorum outs).2 =
        extendEvents outs ++ [Event.lockExtended resource lockId ttl]) ∧
    (outs.count (EvalOutcome.val 1) < quorum →
      (extend resource lockId ttl quorum outs).1 = Except.error extendFailMsg ∧
      (extend resource lockId ttl quorum outs).2 =
        extendEvents outs ++ [Event.errorEvt extendFailMsg]) := by
  rw [extend_eq]
  by_cases hq : quorum ≤ outs.count (EvalOutcome.val 1)
  · refine ⟨⟨fun _ => hq, fun _ => by rw [if_pos hq]⟩, fun _ => by rw [if_pos hq], ?_⟩
    intro hlt
    omega
  · refine ⟨⟨fun h => ?_, fun h => absurd h hq⟩, fun h => absurd h hq, fun _ => ?_⟩
    · rw [if_neg hq] at h
      cases h
    · rw [if_neg hq]
      exact ⟨rfl, rfl⟩

/-- Claim C6 witness: two of three stores answer 1, quorum 2 is met, extend
resolves. -/
theorem extend_quorum_iff_witness :
    2 ≤ [EvalOutcome.val 1, EvalOutcome.err, EvalOutcome.val 1].count (EvalOutcome.val 1) ∧
    (extend "r" "t" 500 2 [EvalOutcome.val 1, EvalOutcome.err, EvalOutcome.val 1]).1 =
      Except.ok () :=
  ⟨by decide, (extend_quorum_iff "r" "t" 500 2 _).1.mpr (by decide)⟩

/-- Claim C7: release resolves for every resource, token and pattern of
per-store outcomes (throwing stores included), emits the lockReleased
notification unconditionally as its final event, reports each throwing
store with an unlockError notification, and the store-side check-then-delete
is a no-op answering 0 on any store that holds no live entry under the
supplied token (never-acquired and already-released pairs included). -/
theorem release_always_succeeds (resource lockId : String) (outs : List EvalOutcome) :
    (release resource lockId outs).1 = Except.ok () ∧
    (release resource lockId outs).2.getLast? = some (Event.lockReleased resource lockId) ∧
    (∀ i, outs[i]? = some EvalOutcome.err →
      Event.unlockError i ∈ (release resource lockId outs).2) ∧
    (∀ (st : Store) (now : Nat),
      (∀ e, Store.lookup st resource = some e → e.value = lockId → isLive e now = false) →
      scriptUnlock st now resource lockId = (0, st)) := by
  refine ⟨rfl, getLast?_append_singleton _ _, ?_, ?_⟩
  · intro i h
    exact List.mem_append.2 (Or.inl (mem_unlockEvents h))
  · intro st now hdead
    unfold scriptUnlock
    cases hcase : Store.lookup st resource with
    | none => rfl
    | some e =>
        show (if e.value = lockId ∧ isLive e now = true then
            ((1 : Int), Store.erase st resource)
          else ((0 : Int), st)) = ((0 : Int), st)
        rw [if_neg]
        rintro ⟨hval, hlive⟩
        rw [hdead e hcase hval] at hlive
        cases hlive

/-- Claim C7 witness: release with a throwing store and a token that does
not match the stored one: the call resolves and the store is untouched. -/
theorem release_always_succeeds_witness :
    (release "r" "t" [EvalOutcome.err]).1 = Except.ok () ∧
    scriptUnlock [("r", { value := "other", expiresAt := some 100 })] 5 "r" "t" =
      (0, [("r", { value := "other", expiresAt := some 100 })]) :=
  ⟨(release_always_succeeds "r" "t" [EvalOutcome.err]).1,
   (release_always_succeeds "r" "t" [EvalOutcome.err]).2.2.2 _ 5 (by
      intro e he hval
      rw [show e = { value := "other", expiresAt := some 100 } from by
        cases he
        rfl] at hval
      exact absurd hval (by decide))⟩

/-- Claim C9: a store whose conditional-set call throws contributes exactly
0 votes (the tally counts only OK answers), receives a lockError
notification tagged with its index, and the run result is decided purely by
the per-attempt vote tallies: replacing any pattern of throwing stores by
null-answering stores (same votes) leaves the result unchanged, so no
store exception ever aborts the attempt. -/
theorem store_error_isolated (outs : List SetOutcome) :
    lockInstancesVotes outs = outs.count SetOutcome.ok ∧
    (∀ i, outs[i]? = some SetOutcome.err → Event.lockError i ∈ lockErrorEvents outs) ∧
    (∀ (env env' : AcquireEnv) (r : String) (ttl q rc rd : Nat),
      env.token = env'.token → env.startTime = env'.startTime →
      env.checkTime = env'.checkTime →
      (∀ k, attemptVotes env k = attemptVotes env' k) →
      (acquire env r ttl q rc rd).result = (acquire env' r ttl q rc rd).result) :=
  ⟨lockInstancesVotes_eq_count outs,
   fun _ h => mem_lockErrorEvents h,
   fun env env' r ttl q rc rd htok hst hck hv =>
     loop_result_votes_only env env' r ttl q rd htok hst hck hv rc 0⟩

/-- Claim C9 witness: a throwing store is reported and a run against a
throwing store gives the same result as against a null-answering store. -/
theorem store_error_isolated_witness :
    [SetOutcome.ok, SetOutcome.err][1]? = some SetOutcome.err ∧
    Event.lockError 1 ∈ lockErrorEvents [SetOutcome.ok, SetOutcome.err] ∧
    (acquire envErr "r" 100 1 1 200).result = (acquire envNil "r" 100 1 1 200).result :=
  ⟨rfl,
   (store_error_isolated [SetOutcome.ok, SetOutcome.err]).2.1 1 rfl,
   (store_error_isolated []).2.2 envErr envNil "r" 100 1 1 200 rfl rfl rfl (fun _ => rfl)⟩

/-- Claim C10: the constructor defaults its options with logical or, so an
explicit 0 for retryCount or retryDelay is falsy and is replaced by the
defaults 3 and 200; consequently no configuration yields a zero retry count
or a zero inter-attempt delay. -/
theorem zero_options_replaced_by_defaults :
    (∀ n rdOpt, (mkConfig n (some { retryCount := some 0, retryDelay := rdOpt })).retryCount = 3) ∧
    (∀ n rcOpt, (mkConfig n (some { retryCount := rcOpt, retryDelay := some 0 })).retryDelay = 200) ∧
    (∀ n opts, 0 < (mkConfig n opts).retryCount ∧ 0 < (mkConfig n opts).retryDelay) :=
  ⟨fun _ _ => rfl,
   fun _ _ => rfl,
   fun _ opts =>
     ⟨jsOrDefault_pos _ 3 (by omega), jsOrDefault_pos _ 200 (by omega)⟩⟩

/-- A sublist of the right part is a sublist of an append. -/
lemma sublist_append_right_of {α : Type} {l L₂ : List α} (L₁ : List α)
    (h : List.Sublist l L₂) :
    List.Sublist l (L₁ ++ L₂) :=
  h.trans (List.sublist_append_right L₁ L₂)

/-- Claim C8: whenever an attempt that is reached fails, the rollback
fan-out with the token of the call is issued before what follows.  Below
quorum, the rollback precedes the attemptFailed notification and the
inter-attempt sleep that separates it from the next retry.  On quorum with
an exhausted validity window, the rollback precedes the fatal error
notification, the call fails with that error, and no later attempt issues a
conditional-set fan-out (the failure is terminal, with no further retry). -/
theorem failed_attempt_rollback (env : AcquireEnv) (r : String) (ttl q rc rd k : Nat)
    (hreach : ∀ j, j < k → attemptVotes env j < q) (hk : k < rc) :
    (attemptVotes env k < q →
      List.Sublist
        [Step.rollback k r env.token, Step.emit (Event.attemptFailed r env.token k),
          Step.sleep rd]
        (acquire env r ttl q rc rd).trace) ∧
    (q ≤ attemptVotes env k → attemptValidity env ttl k ≤ 0 →
      List.Sublist [Step.rollback k r env.token, Step.emit (Event.errorEvt validityMsg)]
        (acquire env r ttl q rc rd).trace ∧
      (acquire env r ttl q rc rd).result = Except.error validityMsg ∧
      (∀ a res tok t, k < a →
        Step.setFanout a res tok t ∉ (acquire env r ttl q rc rd).trace)) := by
  obtain ⟨pre, hres, htr, hfan⟩ :=
    loop_skip env r ttl q rd k rc 0 (by omega) (fun j hj => by simpa using hreach j hj)
  rw [Nat.zero_add] at hres htr hfan
  obtain ⟨n, hn⟩ : ∃ n, rc - k = n + 1 := ⟨rc - k - 1, by omega⟩
  rw [hn] at hres htr
  constructor
  · intro hlt
    have hqn : ¬ q ≤ attemptVotes env k := by omega
    show List.Sublist _ (acquireLoop env r ttl q rd rc 0).trace
    rw [htr, acquireLoop_below_trace hqn]
    refine sublist_append_right_of pre ?_
    refine sublist_append_right_of (fanoutBlock env r ttl k) ?_
    simp only [rollbackBlock, List.cons_append]
    refine List.Sublist.cons₂ _ ?_
    refine sublist_append_right_of _ ?_
    exact List.sublist_append_left _ _
  · intro hq hv
    have hvn : ¬ 0 < attemptValidity env ttl k := by omega
    refine ⟨?_, ?_, ?_⟩
    · show List.Sublist _ (acquireLoop env r ttl q rd rc 0).trace
      rw [htr, acquireLoop_quorum_fatal_trace hq hvn]
      refine sublist_append_right_of pre ?_
      refine sublist_append_right_of (fanoutBlock env r ttl k) ?_
      simp only [rollbackBlock, List.cons_append]
      refine List.Sublist.cons₂ _ ?_
      exact sublist_append_right_of _ (List.Sublist.refl _)
    · show (acquireLoop env r ttl q rd rc 0).result = _
      rw [hres, acquireLoop_quorum_fatal hq hvn]
    · intro a res tok t ha hmem
      have hmem' : Step.setFanout a res tok t ∈
          pre ++ (acquireLoop env r ttl q rd (n + 1) k).trace := by
        rw [← htr]
        exact hmem
      rcases List.mem_append.1 hmem' with hp | hk2
      · exact absurd (hfan a res tok t hp) (by omega)
      · rw [acquireLoop_quorum_fatal_trace hq hvn] at hk2
        rcases List.mem_append.1 hk2 with h1 | h2
        · have := (setFanout_mem_fanoutBlock h1).1
          omega
        · rcases List.mem_append.1 h2 with h3 | h4
          · exact absurd h3 setFanout_not_mem_rollbackBlock
          · simp at h4

/-- Claim C8 witness: in envC4 attempt 1 reaches quorum with an exhausted
validity window; the rollback precedes the fatal error and the call fails
terminally. -/
theorem failed_attempt_rollback_witness :
    (2 ≤ attemptVotes envC4 1 ∧ attemptValidity envC4 1000 1 ≤ 0) ∧
    List.Sublist [Step.rollback 1 "r" envC4.token, Step.emit (Event.errorEvt validityMsg)]
      (acquire envC4 "r" 1000 2 3 200).trace ∧
    (acquire envC4 "r" 1000 2 3 200).result = Except.error validityMsg :=
  ⟨⟨by decide, by decide⟩,
   ((failed_attempt_rollback envC4 "r" 1000 2 3 200 1
      (fun j hj => by
        have hj0 : j = 0 := by omega
        subst hj0
        decide)
      (by omega)).2 (by decide) (by decide)).1,
   ((failed_attempt_rollback envC4 "r" 1000 2 3 200 1
      (fun j hj => by
        have hj0 : j = 0 := by omega
        subst hj0
        decide)
      (by omega)).2 (by decide) (by decide)).2.1⟩

end Redlock
